import Mathlib

/-!
Verification of the object/folder management layer of an S3-style bucket
client (`bucket.py`).  The store is modelled as an association list of
(key, content) pairs kept in listing order; each public operation of the
`Bucket` class is translated into a pure function on that state.  Transport
failures that the Python code catches with `try/except` are injected
through explicit Boolean flags (`copyFails`, `deleteFails`, ...), and a
Python function that can fall off its end returning `None` is modelled
with an `Option Bool` result.
-/

namespace Bucket

/-- An object in the bucket: key and content (the content doubles as the
opaque ETag fingerprint, since the ETag is derived from the content). -/
abbrev Obj := String × String

/-- The bucket state: objects in the store's natural listing order. -/
abbrev Store := List Obj

/-- Python `s.endswith('/')`. -/
def endsSlash (s : String) : Bool := s.toList.getLast? = some '/'

/-- Python `k.startswith(p)`: key `k` lies under the string `p`. -/
def underPre (p k : String) : Bool := p.toList.isPrefixOf k.toList

/-- Folder-name normalisation used throughout `bucket.py`:
`folder_name if folder_name.endswith('/') else folder_name + '/'`. -/
def normalizeSlash (s : String) : String := if endsSlash s then s else s ++ "/"

/-- Python dict-style lookup of a key in the store (`head_object`). -/
def lookupKey (store : Store) (k : String) : Option String :=
  match store with
  | [] => none
  | o :: rest => if o.1 = k then some o.2 else lookupKey rest k

/-- `put_object` / `upload_file` effect on the store: replace the content
when the key exists, otherwise append the new object. -/
def putObj (store : Store) (k v : String) : Store :=
  if (lookupKey store k).isSome then
    store.map (fun o => if o.1 = k then (k, v) else o)
  else store ++ [(k, v)]

/-- `delete_object` effect on the store: remove the key if present
(the store does not error on a missing key). -/
def eraseKey (store : Store) (k : String) : Store :=
  store.filter (fun o => !(o.1 == k))

/-- `delete_objects` (batch delete) effect on the store. -/
def batchDelete (store : Store) (keys : List String) : Store :=
  store.filter (fun o => !(keys.contains o.1))

/-- The keys a `list_objects_v2` request with the given `Prefix` parameter
matches, in listing order (`none` = no `Prefix` parameter, whole bucket). -/
def listMatching (store : Store) (pre : Option String) : Store :=
  match pre with
  | none => store
  | some p => store.filter (fun o => underPre p o.1)

/-- The pagination loop of `Bucket.get_object_list` (lines 134-169): request
a page of at most `pageSize` keys starting at the continuation marker
`start`, accumulate, and continue while the response is truncated.  `fuel`
bounds the number of iterations; callers supply enough fuel for every page
(the Python loop has no bound, but with a positive page size it performs at
most `matching.length` iterations). -/
def paginateLoop (matching : Store) (pageSize : Nat) : Nat → Nat → Store
  | 0, _ => []
  | fuel + 1, start =>
    let page := (matching.drop start).take pageSize
    if start + pageSize < matching.length then
      page ++ paginateLoop matching pageSize fuel (start + pageSize)
    else page

/-- All keys accumulated by the pagination loop, starting from no marker. -/
def paginate (matching : Store) (pageSize : Nat) : Store :=
  paginateLoop matching pageSize (matching.length + 1) 0

/-- Python truthiness of the `folder_name` argument plus normalisation:
`None` and `""` mean "no Prefix parameter". -/
def normOpt (folderName : Option String) : Option String :=
  match folderName with
  | none => none
  | some s => if s = "" then none else some (normalizeSlash s)

/-- `Bucket.get_object_list` with `check_folder=False` (lines 120-180):
paginated listing; returns `none` (Python `False`) when the first page has
no contents; when a folder name was given and the first accumulated key
equals the (normalised) folder name, that sentinel entry is dropped from
the returned list (line 176). -/
def get_object_list (store : Store) (pageSize : Nat) (folderName : Option String) :
    Option Store :=
  let fn := normOpt folderName
  let matching := listMatching store fn
  match paginate matching pageSize, fn with
  | [], _ => none
  | o :: rest, some p => if o.1 = p then some rest else some (o :: rest)
  | l, none => some l

/-- `Bucket.get_object_list` with `check_folder=True` (probe mode, lines
143-156): a single request with `MaxKeys = 2`; returns the raw length of
the returned contents, or `none` (Python `False`) when there are none. -/
def get_object_list_check (store : Store) (folderName : Option String) : Option Nat :=
  let matching := listMatching store (normOpt folderName)
  match matching.take 2 with
  | [] => none
  | l => some l.length

/-- AWS default page size for `list_objects_v2` when `MaxKeys` is omitted. -/
def defaultPageSize : Nat := 1000

/-- `Bucket.get_file_metadata` (lines 59-78): `head_object` probe; `none`
models the Python `False` on a missing key (the metadata itself is
collapsed to the stored content/ETag). -/
def get_file_metadata (store : Store) (fileName : String) : Option String :=
  lookupKey store fileName

/-- `Bucket.upload_file` (lines 80-118).  `localExists` models whether the
local path resolves (`FileNotFoundError` otherwise) and `transferFails`
models an exception inside `client.upload_file`.  Returns the new store
and the Boolean result. -/
def upload_file (store : Store) (localExists transferFails : Bool)
    (fileName content : String) (replace : Bool) : Store × Bool :=
  if !localExists then (store, false)
  else if (get_file_metadata store fileName).isSome && !replace then (store, false)
  else if transferFails then (store, false)
  else (putObj store fileName content, true)

/-- `Bucket.create_folder` (lines 182-204): normalise the name, probe with
`check_folder=True`; when present and `replace=False` return `True`
without writing; otherwise `put_object` a zero-byte sentinel
(`putFails` models an exception in the put). -/
def create_folder (store : Store) (putFails : Bool) (folderName : String)
    (replace : Bool) : Store × Bool :=
  let fn := normalizeSlash folderName
  if (get_object_list_check store (some fn)).isSome && !replace then (store, true)
  else if putFails then (store, false)
  else (putObj store fn "", true)

/-- `Bucket.delete_object` (lines 206-228).  For a folder key (ending `/`)
it probes via `get_object_list(…, True)`: absent gives `False`, a count
above 1 gives `False` with guidance; otherwise (and for any file key) an
unconditional store delete (`deleteFails` models an exception in
`client.delete_object`). -/
def delete_object (store : Store) (deleteFails : Bool) (objectName : String) :
    Store × Bool :=
  if endsSlash objectName then
    match get_object_list_check store (some objectName) with
    | none => (store, false)
    | some n =>
      if 1 < n then (store, false)
      else if deleteFails then (store, false)
      else (eraseKey store objectName, true)
  else if deleteFails then (store, false)
  else (eraseKey store objectName, true)

/-- `Bucket.move_file` (lines 230-249): copy `oldName` to `newName`
(`copy_object` raises `NoSuchKey` if the source is absent, caught into
`False`), then call `delete_object(old_name)` discarding its result, and
return `True`. -/
def move_file (store : Store) (copyFails deleteFails : Bool)
    (oldName newName : String) : Store × Bool :=
  match lookupKey store oldName with
  | none => (store, false)
  | some c =>
    if copyFails then (store, false)
    else
      let s1 := putObj store newName c
      ((delete_object s1 deleteFails oldName).1, true)

/-- The opaque presigned URL produced by `generate_presigned_url`. -/
def presignedUrl (fileName : String) (expiration : Nat) : String :=
  fileName ++ "?expires=" ++ toString expiration

/-- `Bucket.get_file_link` (lines 251-270): raise (caught into `False`)
when the metadata probe fails, otherwise request a presigned URL.  The
second component records whether a presigned-URL request was issued. -/
def get_file_link (store : Store) (fileName : String) (expiration : Nat) :
    Option String × Bool :=
  if (get_file_metadata store fileName).isSome then
    (some (presignedUrl fileName expiration), true)
  else (none, false)

/-- `Bucket.delete_folder_data` (lines 272-294): list the folder with
`get_object_list`; an empty or failed listing gives `False`; otherwise one
`delete_objects` batch request over the listed keys.  The third component
records the key set of the issued batch-delete request. -/
def delete_folder_data (store : Store) (folderName : String) :
    Store × Bool × List String :=
  let fn := normalizeSlash folderName
  match get_object_list store defaultPageSize (some fn) with
  | none => (store, false, [])
  | some objs =>
    if objs.isEmpty then (store, false, [])
    else
      let keys := objs.map (fun o => o.1)
      (batchDelete store keys, true, keys)

/-- Python `key.replace(old, new, 1)` on character lists: replace the first
occurrence of `old` by `new`. -/
def replaceFirstAux (old new : List Char) : List Char → List Char
  | [] => []
  | c :: cs =>
    if old.isPrefixOf (c :: cs) then new ++ (c :: cs).drop old.length
    else c :: replaceFirstAux old new cs

/-- Python `key.replace(old_name, new_name, 1)` used in `move_folder`. -/
def replaceFirst (s old new : String) : String :=
  ⟨replaceFirstAux old.toList new.toList s.toList⟩

/-- The `for obj in objects` loop of `move_folder` (lines 312-315): move
each listed object to its rewritten key, discarding each result. -/
def moveAll (store : Store) (objs : Store) (oldName newName : String) : Store :=
  match objs with
  | [] => store
  | o :: rest =>
    moveAll (move_file store false false o.1 (replaceFirst o.1 oldName newName)).1
      rest oldName newName

/-- `Bucket.move_folder` (lines 296-323): create the destination folder
(abort on failure), list the source (iterating over a `False` listing
raises, caught into `False`), move every listed object, delete the old
folder key (abort on failure) — and then fall off the end of the function,
returning Python `None`, modelled as `none`.  Explicit `return False`
paths give `some false`. -/
def move_folder (store : Store) (oldName newName : String) : Store × Option Bool :=
  let old := normalizeSlash oldName
  let nw := normalizeSlash newName
  let cf := create_folder store false nw false
  if !cf.2 then (cf.1, some false)
  else
    match get_object_list cf.1 defaultPageSize (some old) with
    | none => (cf.1, some false)
    | some objs =>
      let s2 := moveAll cf.1 objs old nw
      let dl := delete_object s2 false old
      if !dl.2 then (dl.1, some false) else (dl.1, none)

/-- The content entries under the normalised folder name `p`: every
matching entry except a leading sentinel entry whose key is `p` itself. -/
def contentEntries (store : Store) (p : String) : Store :=
  match listMatching store (some p) with
  | [] => []
  | o :: rest => if o.1 = p then rest else o :: rest

/-! Supporting lemmas about the pagination loop and the listing. -/

theorem paginateLoop_eq (m : Store) (p : Nat) (hp : 0 < p) :
    ∀ fuel start, m.length ≤ start + fuel →
      paginateLoop m p fuel start = m.drop start := by
  intro fuel
  induction fuel with
  | zero =>
    intro start h
    simp only [paginateLoop]
    exact (List.drop_eq_nil_of_le (by omega)).symm
  | succ n ih =>
    intro start h
    simp only [paginateLoop]
    by_cases hc : start + p < m.length
    · rw [if_pos hc, ih (start + p) (by omega)]
      rw [← List.drop_drop]
      exact List.take_append_drop p (m.drop start)
    · rw [if_neg hc]
      exact List.take_of_length_le (by simp [List.length_drop]; omega)

theorem paginate_eq (m : Store) (p : Nat) (hp : 0 < p) : paginate m p = m := by
  have h := paginateLoop_eq m p hp (m.length + 1) 0 (by omega)
  simpa [paginate] using h

theorem get_object_list_some (store : Store) (ps : Nat) (s : String)
    (hs : s ≠ "") (hps : 0 < ps)
    (hne : listMatching store (some (normalizeSlash s)) ≠ []) :
    get_object_list store ps (some s) = some (contentEntries store (normalizeSlash s)) := by
  unfold get_object_list contentEntries
  simp only [normOpt, if_neg hs]
  rw [paginate_eq _ _ hps]
  cases h : listMatching store (some (normalizeSlash s)) with
  | nil => exact absurd h hne
  | cons o rest => by_cases ho : o.1 = normalizeSlash s <;> simp [ho]

theorem get_object_list_none (store : Store) (ps : Nat) (s : String) (hs : s ≠ "")
    (hm : listMatching store (some (normalizeSlash s)) = []) :
    get_object_list store ps (some s) = none := by
  unfold get_object_list
  simp only [normOpt, if_neg hs]
  rw [hm]
  simp [paginate, paginateLoop]

theorem contentEntries_sublist (store : Store) (p : String) :
    List.Sublist (contentEntries store p) store := by
  unfold contentEntries
  cases h : listMatching store (some p) with
  | nil => exact List.nil_sublist _
  | cons o rest =>
    have hm : List.Sublist (o :: rest) store := by
      rw [← h]; unfold listMatching; exact List.filter_sublist _
    by_cases ho : o.1 = p
    · simp only [if_pos ho]
      exact List.Sublist.trans (List.sublist_cons_self o rest) hm
    · simp only [if_neg ho]
      exact hm

theorem contentEntries_ne_nil_matching (store : Store) (p : String)
    (h : contentEntries store p ≠ []) : listMatching store (some p) ≠ [] := by
  intro hm
  apply h
  unfold contentEntries
  rw [hm]

/-- C1: for every prefix containing N content objects where N exceeds one
listing-page size, `get_object_list` with `check_folder=false` returns
exactly those N objects — no duplicates (given unique store keys), no
omissions — by following the continuation marker across pages, regardless
of the page size used internally. -/
theorem get_object_list_pagination_exact (store : Store) (s : String) (ps : Nat)
    (hs : s ≠ "") (hps : 0 < ps)
    (hnd : (store.map Prod.fst).Nodup)
    (hN : ps < (contentEntries store (normalizeSlash s)).length) :
    get_object_list store ps (some s) = some (contentEntries store (normalizeSlash s)) ∧
    ((contentEntries store (normalizeSlash s)).map Prod.fst).Nodup := by
  have hne : contentEntries store (normalizeSlash s) ≠ [] := by
    intro h
    rw [h] at hN
    simp at hN
  refine ⟨get_object_list_some store ps s hs hps
    (contentEntries_ne_nil_matching store (normalizeSlash s) hne), ?_⟩
  exact hnd.sublist ((contentEntries_sublist store (normalizeSlash s)).map Prod.fst)

/-- Witness for C1: four keys under `a/` (a sentinel plus three content
objects) listed with page size 2 — two pages — return the three content
objects exactly. -/
theorem get_object_list_pagination_exact_witness :
    get_object_list [("a/", ""), ("a/1", "x"), ("a/2", "y"), ("a/3", "z")] 2 (some "a/") =
      some (contentEntries [("a/", ""), ("a/1", "x"), ("a/2", "y"), ("a/3", "z")]
        (normalizeSlash "a/")) ∧
    ((contentEntries [("a/", ""), ("a/1", "x"), ("a/2", "y"), ("a/3", "z")]
        (normalizeSlash "a/")).map Prod.fst).Nodup :=
  get_object_list_pagination_exact [("a/", ""), ("a/1", "x"), ("a/2", "y"), ("a/3", "z")]
    "a/" 2 (by decide) (by decide) (by decide) (by decide)

/-- C2 counterexample: with the store holding sentinel `a/` and object
`a/x`, probe mode reports count 2 — the raw page length, sentinel
included — while the sentinel-excluded content count is 1, so the
claimed exclusion from the reported count does not apply in probe mode. -/
theorem probe_count_includes_sentinel :
    get_object_list_check [("a/", ""), ("a/x", "cx")] (some "a/") = some 2 ∧
    (get_object_list [("a/", ""), ("a/x", "cx")] defaultPageSize (some "a/")).map
      List.length = some 1 := by
  decide

/-- C2 amended: when the first key matched under a non-empty prefix equals
the prefix itself (the folder sentinel), the listing excludes the sentinel
from the returned sequence (and hence from the count of that sequence);
listing `a/` holding the sentinel plus `a/x` and `a/y` returns exactly
those two objects.  In probe mode, however, the reported count is the raw
length of the capped page (at most 2) and includes the sentinel. -/
theorem sentinel_filtering_amended (store : Store) (ps : Nat) (s v : String)
    (rest : Store) (hs : s ≠ "") (hps : 0 < ps)
    (hm : listMatching store (some (normalizeSlash s)) = (normalizeSlash s, v) :: rest) :
    get_object_list store ps (some s) = some rest ∧
    get_object_list_check store (some s) = some (min 2 (rest.length + 1)) ∧
    get_object_list [("a/", ""), ("a/x", "cx"), ("a/y", "cy")] defaultPageSize
      (some "a/") = some [("a/x", "cx"), ("a/y", "cy")] := by
  refine ⟨?_, ?_, by decide⟩
  · rw [get_object_list_some store ps s hs hps (by rw [hm]; exact List.cons_ne_nil _ _)]
    unfold contentEntries
    rw [hm]
    simp
  · unfold get_object_list_check
    simp only [normOpt, if_neg hs]
    rw [hm]
    have ht : ((normalizeSlash s, v) :: rest).take 2 = (normalizeSlash s, v) :: rest.take 1 :=
      rfl
    rw [ht]
    have hl : ((normalizeSlash s, v) :: rest.take 1).length = min 2 (rest.length + 1) := by
      simp [List.length_take]
      omega
    simp [hl]

/-- Witness for C2 amended: the store holding sentinel `a/` and object
`a/x`; the listing returns just the object while the probe reports 2. -/
theorem sentinel_filtering_amended_witness :
    get_object_list [("a/", ""), ("a/x", "cx")] 1000 (some "a/") = some [("a/x", "cx")] ∧
    get_object_list_check [("a/", ""), ("a/x", "cx")] (some "a/") =
      some (min 2 (([("a/x", "cx")] : Store).length + 1)) ∧
    get_object_list [("a/", ""), ("a/x", "cx"), ("a/y", "cy")] defaultPageSize
      (some "a/") = some [("a/x", "cx"), ("a/y", "cy")] :=
  sentinel_filtering_amended [("a/", ""), ("a/x", "cx")] 1000 "a/" "" [("a/x", "cx")]
    (by decide) (by decide) (by decide)

/-! Supporting lemmas about store updates. -/

theorem lookupKey_append (l1 l2 : Store) (k : String) :
    lookupKey (l1 ++ l2) k =
      match lookupKey l1 k with
      | some v => some v
      | none => lookupKey l2 k := by
  induction l1 with
  | nil => simp [lookupKey]
  | cons o rest ih => by_cases h : o.1 = k <;> simp [lookupKey, h, ih]

theorem lookupKey_mapPut_self (store : Store) (k v : String)
    (hs : (lookupKey store k).isSome) :
    lookupKey (store.map (fun o => if o.1 = k then (k, v) else o)) k = some v := by
  induction store with
  | nil => simp [lookupKey] at hs
  | cons o rest ih =>
    by_cases ho : o.1 = k
    · simp [lookupKey, ho]
    · have hr : (lookupKey rest k).isSome := by
        simpa [lookupKey, ho] using hs
      simp [lookupKey, ho, ih hr]

theorem lookupKey_mapPut_ne (store : Store) (k v k' : String) (h : k' ≠ k) :
    lookupKey (store.map (fun o => if o.1 = k then (k, v) else o)) k' =
      lookupKey store k' := by
  induction store with
  | nil => rfl
  | cons o rest ih =>
    by_cases ho : o.1 = k
    · simp [lookupKey, ho, Ne.symm h, ih]
    · by_cases ho' : o.1 = k' <;> simp [lookupKey, ho, ho', ih, h]

theorem lookupKey_putObj_self (store : Store) (k v : String) :
    lookupKey (putObj store k v) k = some v := by
  unfold putObj
  by_cases h : (lookupKey store k).isSome
  · simp only [if_pos h]
    exact lookupKey_mapPut_self store k v h
  · simp only [if_neg h]
    rw [lookupKey_append]
    cases hl : lookupKey store k with
    | some v' => rw [hl] at h; simp at h
    | none => simp [lookupKey]

theorem lookupKey_putObj_ne (store : Store) (k v k' : String) (h : k' ≠ k) :
    lookupKey (putObj store k v) k' = lookupKey store k' := by
  unfold putObj
  by_cases hs : (lookupKey store k).isSome
  · simp only [if_pos hs]
    exact lookupKey_mapPut_ne store k v k' h
  · simp only [if_neg hs]
    rw [lookupKey_append]
    cases hl : lookupKey store k' with
    | some v' => simp
    | none => simp [lookupKey, Ne.symm h]

theorem eraseKey_of_absent (store : Store) (k : String)
    (h : lookupKey store k = none) : eraseKey store k = store := by
  induction store with
  | nil => rfl
  | cons o rest ih =>
    unfold lookupKey at h
    by_cases ho : o.1 = k
    · simp [ho] at h
    · have hr := ih (by simpa [ho] using h)
      simp only [eraseKey] at hr ⊢
      simp [List.filter_cons, ho, hr]

theorem delete_object_fails (store : Store) (k : String) :
    delete_object store true k = (store, false) := by
  unfold delete_object
  by_cases h : endsSlash k
  · simp only [if_pos h]
    cases get_object_list_check store (some k) with
    | none => rfl
    | some n => by_cases hn : 1 < n <;> simp [hn]
  · simp [h]

/-- C3 counterexample: moving `a` to `b` with the copy succeeding and the
delete of `a` failing leaves both keys in the store but `move_file` reports
`true` (success), not failure — the failed delete's result is discarded at
line 242 of `bucket.py`. -/
theorem move_file_reports_success_on_delete_failure :
    move_file [("a", "c")] false true "a" "b" = ([("a", "c"), ("b", "c")], true) := by
  decide

/-- C3 amended: for every file move where the copy to the new key succeeds
but the subsequent delete of the old key fails, `move_file` leaves the
store with both keys present (holding the same content) and reports
success — the delete failure is only printed inside `delete_object`, never
surfaced in the returned Boolean. -/
theorem move_file_delete_failure_state (store : Store) (oldN newN c : String)
    (hold : lookupKey store oldN = some c) :
    (move_file store false true oldN newN).1 = putObj store newN c ∧
    lookupKey (move_file store false true oldN newN).1 oldN = some c ∧
    lookupKey (move_file store false true oldN newN).1 newN = some c ∧
    (move_file store false true oldN newN).2 = true := by
  have hmv : move_file store false true oldN newN = (putObj store newN c, true) := by
    unfold move_file
    rw [hold]
    simp [delete_object_fails]
  rw [hmv]
  refine ⟨rfl, ?_, lookupKey_putObj_self store newN c, rfl⟩
  by_cases he : oldN = newN
  · rw [he]
    exact lookupKey_putObj_self store newN c
  · rw [lookupKey_putObj_ne store newN c oldN he]
    exact hold

/-- Witness for C3 amended: the concrete failed-delete move of `a` to `b`. -/
theorem move_file_delete_failure_state_witness :
    (move_file [("a", "c")] false true "a" "b").1 = putObj [("a", "c")] "b" "c" ∧
    lookupKey (move_file [("a", "c")] false true "a" "b").1 "a" = some "c" ∧
    lookupKey (move_file [("a", "c")] false true "a" "b").1 "b" = some "c" ∧
    (move_file [("a", "c")] false true "a" "b").2 = true :=
  move_file_delete_failure_state [("a", "c")] "a" "b" "c" (by decide)

/-- C7: uploading to a key that already exists with `replace=false` returns
failure with the store untouched — no bytes transferred, content and ETag
unchanged (whether or not the transfer would have failed) — while with
`replace=true` the object's content is replaced. -/
theorem upload_duplicate_guard (store : Store) (name c newC : String) (tf : Bool)
    (h : lookupKey store name = some c) :
    upload_file store true tf name newC false = (store, false) ∧
    lookupKey (upload_file store true tf name newC false).1 name = some c ∧
    upload_file store true false name newC true = (putObj store name newC, true) ∧
    lookupKey (putObj store name newC) name = some newC := by
  have hsome : (get_file_metadata store name).isSome = true := by
    simp [get_file_metadata, h]
  have h1 : upload_file store true tf name newC false = (store, false) := by
    unfold upload_file
    simp [hsome]
  refine ⟨h1, by rw [h1]; exact h, ?_, lookupKey_putObj_self store name newC⟩
  unfold upload_file
  simp [hsome]

/-- Witness for C7: key `f` holding `old`, overwritten only when
`replace=true`. -/
theorem upload_duplicate_guard_witness :
    upload_file [("f", "old")] true true "f" "new" false = ([("f", "old")], false) ∧
    lookupKey (upload_file [("f", "old")] true true "f" "new" false).1 "f" = some "old" ∧
    upload_file [("f", "old")] true false "f" "new" true =
      (putObj [("f", "old")] "f" "new", true) ∧
    lookupKey (putObj [("f", "old")] "f" "new") "f" = some "new" :=
  upload_duplicate_guard [("f", "old")] "f" "old" "new" true (by decide)

/-- C8: deleting a file key (not ending in `/`) that is absent from the
store succeeds and leaves the store unchanged, and calling delete again
also succeeds with the store still unchanged — delete is idempotent. -/
theorem delete_absent_idempotent (store : Store) (k : String)
    (hk : endsSlash k = false) (h : lookupKey store k = none) :
    delete_object store false k = (store, true) ∧
    delete_object (delete_object store false k).1 false k = (store, true) := by
  have h1 : delete_object store false k = (store, true) := by
    unfold delete_object
    simp [hk, eraseKey_of_absent store k h]
  exact ⟨h1, by rw [h1]; exact h1⟩

/-- Witness for C8: deleting the absent key `y` twice from a store holding
only `x`. -/
theorem delete_absent_idempotent_witness :
    delete_object [("x", "c")] false "y" = ([("x", "c")], true) ∧
    delete_object (delete_object [("x", "c")] false "y").1 false "y" =
      ([("x", "c")], true) :=
  delete_absent_idempotent [("x", "c")] "y" (by decide) (by decide)

/-- C9: when the metadata probe reports the key absent, `get_file_link`
returns failure with no presigned-URL request issued; a presigned URL is
requested only when the metadata probe succeeds. -/
theorem get_file_link_existence_gated (store : Store) (k : String) (e : Nat) :
    (lookupKey store k = none → get_file_link store k e = (none, false)) ∧
    ((get_file_link store k e).2 = true → (lookupKey store k).isSome = true) := by
  constructor
  · intro h
    unfold get_file_link
    simp [get_file_metadata, h]
  · intro h
    by_cases hs : (get_file_metadata store k).isSome
    · exact hs
    · unfold get_file_link at h
      simp [hs] at h

/-- Witness for C9: the empty store, where the probe for `f` fails and no
URL is issued. -/
theorem get_file_link_existence_gated_witness :
    get_file_link [] "f" 3600 = (none, false) :=
  (get_file_link_existence_gated [] "f" 3600).1 rfl

/-! Supporting lemmas about folder-name normalisation and the probe. -/

theorem ne_empty_of_endsSlash (s : String) (h : endsSlash s = true) : s ≠ "" := by
  intro he
  rw [he] at h
  exact absurd h (by decide)

theorem normalizeSlash_of_endsSlash (s : String) (h : endsSlash s = true) :
    normalizeSlash s = s := by
  unfold normalizeSlash
  rw [h]
  rfl

theorem endsSlash_normalizeSlash (s : String) : endsSlash (normalizeSlash s) = true := by
  unfold normalizeSlash
  by_cases h : endsSlash s
  · rw [if_pos h]
    exact h
  · rw [if_neg h]
    unfold endsSlash
    have ht : (s ++ "/").toList = s.toList ++ ['/'] := String.data_append s "/"
    rw [ht, List.getLast?_append_cons]
    decide

theorem underPre_self (p : String) : underPre p p = true := by
  unfold underPre
  exact List.isPrefixOf_iff_prefix.mpr (List.prefix_refl _)

theorem lookupKey_none_of_matching_nil (store : Store) (p : String)
    (h : listMatching store (some p) = []) : lookupKey store p = none := by
  induction store with
  | nil => rfl
  | cons o rest ih =>
    simp only [listMatching, List.filter_cons] at h
    by_cases ho : underPre p o.1
    · rw [if_pos (by simpa using ho)] at h
      exact absurd h (List.cons_ne_nil _ _)
    · rw [if_neg (by simpa using ho)] at h
      have ho' : o.1 ≠ p := by
        intro he
        rw [he] at ho
        exact ho (underPre_self p)
      simp only [lookupKey, if_neg ho']
      exact ih h

theorem probe_counts (store : Store) (k : String) (hk : endsSlash k = true) :
    get_object_list_check store (some k) =
      match listMatching store (some k) with
      | [] => none
      | [_] => some 1
      | _ :: _ :: _ => some 2 := by
  unfold get_object_list_check
  simp only [normOpt, if_neg (ne_empty_of_endsSlash k hk),
    normalizeSlash_of_endsSlash k hk]
  cases h : listMatching store (some k) with
  | nil => rfl
  | cons a t =>
    cases t with
    | nil => rfl
    | cons b t' => rfl

/-- C5 counterexample: an implicit folder `f/` holding only the content
object `f/x` (no sentinel): the probe counts one key, so `delete_object`
issues the delete of the key `f/` and reports success instead of failing
with the guidance message, even though the folder holds content beyond the
sentinel. -/
theorem folder_delete_single_content_key :
    delete_object [("f/x", "c")] false "f/" = ([("f/x", "c")], true) := by
  decide

/-- C5 amended: for a folder key, delete fails when the prefix matches
nothing; fails (with the guidance message) whenever more than one key lies
under the prefix; and when exactly one key lies under the prefix — be it
the sentinel alone or a single content object — the folder key itself is
deleted and success is reported.  Only the folder key is ever removed, so
content keys are never deleted, but a lone content object does not trigger
the guard. -/
theorem delete_object_folder_guard (store : Store) (k : String)
    (hk : endsSlash k = true) :
    (listMatching store (some k) = [] → delete_object store false k = (store, false)) ∧
    (2 ≤ (listMatching store (some k)).length →
      delete_object store false k = (store, false)) ∧
    ((listMatching store (some k)).length = 1 →
      delete_object store false k = (eraseKey store k, true)) := by
  have hp := probe_counts store k hk
  refine ⟨?_, ?_, ?_⟩ <;> intro h
  · unfold delete_object
    rw [if_pos hk, hp, h]
  · unfold delete_object
    rw [if_pos hk, hp]
    cases hm : listMatching store (some k) with
    | nil => rfl
    | cons a t =>
      cases t with
      | nil => rw [hm] at h; simp at h
      | cons b t' => rfl
  · unfold delete_object
    rw [if_pos hk, hp]
    cases hm : listMatching store (some k) with
    | nil => rw [hm] at h; simp at h
    | cons a t =>
      cases t with
      | nil => rfl
      | cons b t' => rw [hm] at h; simp at h

/-- Witness for C5 amended: a folder holding only its sentinel is deleted. -/
theorem delete_object_folder_guard_witness :
    delete_object [("f/", "")] false "f/" = (eraseKey [("f/", "")] "f/", true) :=
  (delete_object_folder_guard [("f/", "")] "f/" (by decide)).2.2 (by decide)

/-- C4 counterexample: the folder `f/` holds its sentinel `f/` and object
`f/x`; `delete_folder_data` issues a batch delete whose key set is
`["f/x"]` only — the sentinel key `f/`, although stored under the prefix,
is stripped by `get_object_list` (line 176) and is not part of the batch
request, contradicting the claimed inclusion. -/
theorem batch_delete_excludes_sentinel :
    delete_folder_data [("f/", ""), ("f/x", "c")] "f/" = ([("f/", "")], true, ["f/x"]) ∧
    lookupKey [("f/", ""), ("f/x", "c")] "f/" = some "" ∧
    underPre "f/" "f/" = true ∧
    "f/" ∉ (delete_folder_data [("f/", ""), ("f/x", "c")] "f/").2.2 := by
  decide

/-- C4 amended: for an existing folder with at least one content key under
it, `delete_folder_data` issues one batch-delete request whose key set is
every key under the prefix except the folder's own leading sentinel (the
listing used for the batch is the sentinel-stripped one); it fails when
the prefix yields no listing or only the sentinel (folder absent or
already empty). -/
theorem delete_folder_data_spec (store : Store) (s : String)
    (hk : endsSlash s = true) :
    (contentEntries store s = [] → delete_folder_data store s = (store, false, [])) ∧
    (contentEntries store s ≠ [] →
      delete_folder_data store s =
        (batchDelete store ((contentEntries store s).map Prod.fst), true,
          (contentEntries store s).map Prod.fst)) := by
  have hs : s ≠ "" := ne_empty_of_endsSlash s hk
  have hnorm : normalizeSlash s = s := normalizeSlash_of_endsSlash s hk
  constructor
  · intro h
    simp only [delete_folder_data]
    rw [hnorm]
    cases hm : listMatching store (some s) with
    | nil =>
      rw [get_object_list_none store defaultPageSize s hs (by rw [hnorm]; exact hm)]
    | cons o rest =>
      rw [get_object_list_some store defaultPageSize s hs (by decide)
        (by rw [hnorm, hm]; exact List.cons_ne_nil _ _), hnorm, h]
      rfl
  · intro h
    simp only [delete_folder_data]
    rw [hnorm]
    rw [get_object_list_some store defaultPageSize s hs (by decide)
      (by rw [hnorm]; exact contentEntries_ne_nil_matching store s h), hnorm]
    simp only [List.isEmpty_iff]
    rw [if_neg h]

/-- Witness for C4 amended: folder `f/` with sentinel and one object. -/
theorem delete_folder_data_spec_witness :
    delete_folder_data [("f/", ""), ("f/x", "c")] "f/" =
      (batchDelete [("f/", ""), ("f/x", "c")]
        ((contentEntries [("f/", ""), ("f/x", "c")] "f/").map Prod.fst), true,
        (contentEntries [("f/", ""), ("f/x", "c")] "f/").map Prod.fst) :=
  (delete_folder_data_spec [("f/", ""), ("f/x", "c")] "f/" (by decide)).2 (by decide)

/-- C6: a fully completed folder move — destination created, every object
moved, old sentinel deleted — makes `move_folder` fall off the end of the
function and return Python `None` (modelled `none`), a falsy value, instead
of the success result promised by the contract; the explicit failure paths
return `False`.  This evaluates the code at such a completed move. -/
theorem move_folder_success_returns_none :
    move_folder [("a/", ""), ("a/x", "cx")] "a/" "b/" =
      ([("b/", ""), ("b/x", "cx")], none) := by
  decide

/-- C10: when the source prefix matches no keys in the store (and the
destination folder does not yet exist and does not lie under the source
prefix), `move_folder` first creates the destination folder sentinel, then
detects the absent source (iterating over the `False` listing raises) and
returns failure — leaving the freshly created destination sentinel behind,
so the state is not unchanged on error. -/
theorem move_folder_absent_source_sentinel (store : Store) (oldN newN : String)
    (hold : listMatching store (some (normalizeSlash oldN)) = [])
    (hnew : listMatching store (some (normalizeSlash newN)) = [])
    (hdisj : underPre (normalizeSlash oldN) (normalizeSlash newN) = false) :
    move_folder store oldN newN = (store ++ [(normalizeSlash newN, "")], some false) ∧
    lookupKey store (normalizeSlash newN) = none ∧
    lookupKey (store ++ [(normalizeSlash newN, "")]) (normalizeSlash newN) = some "" := by
  have hko := endsSlash_normalizeSlash oldN
  have hkn := endsSlash_normalizeSlash newN
  have hno : normalizeSlash (normalizeSlash oldN) = normalizeSlash oldN :=
    normalizeSlash_of_endsSlash _ hko
  have hnn : normalizeSlash (normalizeSlash newN) = normalizeSlash newN :=
    normalizeSlash_of_endsSlash _ hkn
  have hso : normalizeSlash oldN ≠ "" := ne_empty_of_endsSlash _ hko
  have hsn : normalizeSlash newN ≠ "" := ne_empty_of_endsSlash _ hkn
  have hlook : lookupKey store (normalizeSlash newN) = none :=
    lookupKey_none_of_matching_nil store _ hnew
  have hprobe : get_object_list_check store (some (normalizeSlash newN)) = none := by
    unfold get_object_list_check
    simp only [normOpt, if_neg hsn, hnn]
    rw [hnew]
    rfl
  have hput : putObj store (normalizeSlash newN) "" =
      store ++ [(normalizeSlash newN, "")] := by
    unfold putObj
    rw [hlook]
    rfl
  have hcf : create_folder store false (normalizeSlash newN) false =
      (store ++ [(normalizeSlash newN, "")], true) := by
    simp only [create_folder]
    rw [hnn, hprobe]
    simp [hput]
  have hm1 : listMatching (store ++ [(normalizeSlash newN, "")])
      (some (normalizeSlash oldN)) = [] := by
    simp only [listMatching] at hold ⊢
    rw [List.filter_append, hold]
    simp [hdisj]
  have hlist : get_object_list (store ++ [(normalizeSlash newN, "")]) defaultPageSize
      (some (normalizeSlash oldN)) = none :=
    get_object_list_none _ _ _ hso (by rw [hno]; exact hm1)
  refine ⟨?_, hlook, ?_⟩
  · simp only [move_folder]
    rw [hcf]
    simp [hlist]
  · rw [lookupKey_append, hlook]
    simp [lookupKey]

/-- Witness for C10: moving the absent folder `a` to `b` in a store holding
only the unrelated key `z`. -/
theorem move_folder_absent_source_sentinel_witness :
    move_folder [("z", "zz")] "a" "b" =
      ([("z", "zz")] ++ [(normalizeSlash "b", "")], some false) ∧
    lookupKey [("z", "zz")] (normalizeSlash "b") = none ∧
    lookupKey ([("z", "zz")] ++ [(normalizeSlash "b", "")]) (normalizeSlash "b") =
      some "" :=
  move_folder_absent_source_sentinel [("z", "zz")] "a" "b" (by decide) (by decide)
    (by decide)

end Bucket
